import Mathlib

/-!
# Verification of the Insightz document-intelligence backend

Shallow embedding of `src/backend/ingest.py` and `src/backend/main.py`.

Conventions of the embedding:
* Python strings are Lean `String`s; Python string primitives (`str.lower`,
  `str.endswith`, `str.strip`, `str.replace`, slicing) are modelled by the
  `py*` helpers below, each a direct transcription of the CPython semantics
  used by the code.
* JSON objects stored in `doc_store.json` are association lists
  `List (String × String)`; `d.get(k)` is `jget`, `d[k]` is a lookup that
  raises `PyErr.keyError` when the key is absent.
* Vendor SDK calls (pdfplumber, the Gemini embedding/chat models, FAISS,
  the LangChain splitter and RetrievalQA chain) are oracles packaged in an
  `Env`; the repository's own logic around them is transcribed faithfully.
* Fallible code returns `Except PyErr _`; an `Except.error` is an uncaught
  Python exception at that point.
-/

namespace Insightz

/-! ## Python string primitives -/

/-- Python `str.lower()` (per-character lowering, as used on ASCII paths). -/
def pyLower (s : String) : String := ⟨s.data.map Char.toLower⟩

/-- Python `str.endswith(suffix)`: suffix test on the character sequence. -/
def pyEndsWith (s suffix : String) : Bool := suffix.data.isSuffixOf s.data

/-- Python `str.strip()` with no argument: drop whitespace from both ends. -/
def pyStrip (s : String) : String :=
  ⟨(((s.data.dropWhile Char.isWhitespace).reverse).dropWhile Char.isWhitespace).reverse⟩

/-- Python slicing `s[:n]` (by characters). -/
def pySlice (s : String) (n : Nat) : String := ⟨s.data.take n⟩

/-- Python `s.replace("\n", " ")`: single-character pattern and replacement,
hence a per-character map. -/
def pyReplaceNlSpace (s : String) : String :=
  ⟨s.data.map (fun c => if c = '\n' then ' ' else c)⟩

/-- The characters of the substring `"temp_"` removed by `ingest_file`. -/
def tempMarker : List Char := ['t', 'e', 'm', 'p', '_']

/-- Python `s.replace("temp_", "")`: remove every (leftmost, non-overlapping)
occurrence of `"temp_"`.  Structural recursion: at each position either the
next five characters are the marker (consume them) or one character is kept. -/
def removeTemp : List Char → List Char
  | [] => []
  | 't' :: 'e' :: 'm' :: 'p' :: '_' :: rest => removeTemp rest
  | c :: rest => c :: removeTemp rest

/-- Python `os.path.basename`: the part of the path after the last `'/'`. -/
def basename (s : String) : String :=
  ⟨(s.data.reverse.takeWhile (fun c => !(c == '/'))).reverse⟩

/-- The `original_filename` as computed by `ingest_file` (ingest.py line 54):
`os.path.basename(file_path).replace("temp_", "")`. -/
def original_filename_of (file_path : String) : String :=
  ⟨removeTemp (basename file_path).data⟩

/-! ## JSON records -/

/-- A flat JSON object with string values, as stored in `doc_store.json`. -/
abbrev JsonObj := List (String × String)

/-- Python `d.get(k)`: the value of the first binding of `k`, if any. -/
def jget (d : JsonObj) (k : String) : Option String :=
  (d.find? (fun p => p.1 == k)).map Prod.snd

/-- Python `d.get(k, dflt)`. -/
def jgetD (d : JsonObj) (k dflt : String) : String := (jget d k).getD dflt

/-- Uncaught Python exceptions distinguished by the model. -/
inductive PyErr where
  | typeError
  | keyError
  | indexError
  deriving DecidableEq, Repr

/-! ## Ingestion pipeline (`src/backend/ingest.py`) -/

/-- A LangChain `Document`: page content plus the `source`/`page` metadata
written by `ingest_file` and read back by `/search` (`metadata.get('page', …)`
motivates the optional page). -/
structure Document where
  page_content : String
  source : String
  page : Option Nat
  deriving DecidableEq, Repr

/-- Oracles for the vendor SDK calls made by `ingest.py`.  Each field stands
for one external service; an `Except.error` is an exception raised by that
call (caught or not exactly where the Python code catches it). -/
structure Env where
  /-- The `open(image_path, "rb")` + `base64` read in `process_image_with_gemini`;
  errors propagate into `ingest_file`'s outer `except`. -/
  readImage : String → Except String Unit
  /-- The Gemini vision call in `process_image_with_gemini`
  (returns the response content). -/
  visionLLM : String → Except Unit String
  /-- Library `pdfplumber`: for each page, `page.extract_text() or ""`;
  errors propagate into `ingest_file`'s outer `except`. -/
  pdfPages : String → Except String (List String)
  /-- The Gemini classification call in `ingest_file` (ingest.py line 73),
  given the full prompt. -/
  classifyLLM : String → Except Unit String
  /-- Splitter `RecursiveCharacterTextSplitter.split_documents`. -/
  splitChunks : List Document → List Document
  /-- Whether `FAISS.load_local` + `merge_from` + `save_local` on the existing
  index succeeds (ingest.py lines 88-92); on failure the inner `except`
  overwrites with the new index. -/
  loadIndexOk : Bool

/-- The on-disk state touched by the backend: the parsed contents of
`doc_store.json` and the persisted FAISS index (`none` when the
`faiss_index` directory does not exist; otherwise the chunks it holds). -/
structure St where
  docStore : List JsonObj
  faissIndex : Option (List Document)
  deriving DecidableEq, Repr

/-- Pipeline steps, recorded as an execution trace by the model. -/
inductive Step where
  | extract
  | chunk
  | embed
  | saveIndex
  | saveMetadata
  deriving DecidableEq, Repr

/-- Result dictionary returned by `ingest_file`:
`{"error": msg}` or `{"status": "Success", "category": c, "summary": s}`. -/
inductive IngestResult where
  | err (msg : String)
  | success (category summary : String)
  deriving DecidableEq, Repr

/-- The record appended by `save_metadata` (ingest.py line 49):
exactly the keys `filename`, `category`, `summary`. -/
def mkRecord (filename category summary : String) : JsonObj :=
  [("filename", filename), ("category", category), ("summary", summary)]

/-- The list comprehension `[d for d in data if d['filename'] != filename]`
(ingest.py line 48); `d['filename']` raises `KeyError` when absent. -/
def removeByFilename (filename : String) : List JsonObj → Except PyErr (List JsonObj)
  | [] => .ok []
  | d :: ds =>
    match jget d "filename" with
    | none => .error .keyError
    | some f =>
      match removeByFilename filename ds with
      | .error e => .error e
      | .ok rest => .ok (if f = filename then rest else d :: rest)

/-- Function `save_metadata` (ingest.py lines 41-51) acting on the parsed contents of
`doc_store.json`: drop every record with the same filename, then append the
new three-field record. -/
def save_metadata (filename category summary : String) (data : List JsonObj) :
    Except PyErr (List JsonObj) :=
  match removeByFilename filename data with
  | .error e => .error e
  | .ok pruned => .ok (pruned ++ [mkRecord filename category summary])

/-- Function `process_image_with_gemini` (ingest.py lines 16-32): read the image file
(exceptions propagate), invoke the vision model, and return the pair
`("Picture", content)`, falling back to `"Image analysis failed."` when the
model call raises. -/
def process_image_with_gemini (env : Env) (image_path : String) :
    Except String (String × String) :=
  match env.readImage image_path with
  | .error m => .error m
  | .ok () =>
    match env.visionLLM image_path with
    | .ok content => .ok ("Picture", content)
    | .error () => .ok ("Picture", "Image analysis failed.")

/-- Function `extract_text_from_pdf` (ingest.py lines 34-39): concatenate
`(page.extract_text() or "") + "\n"` over the pages. -/
def extract_text_from_pdf (env : Env) (pdf_path : String) : Except String String :=
  (env.pdfPages pdf_path).map (fun pages => pages.foldl (fun text p => text ++ p ++ "\n") "")

/-- The extension tests of ingest.py lines 60 and 65:
`file_path.lower().endswith(('.png', '.jpg', '.jpeg', '.webp'))`. -/
def isImageExt (p : String) : Bool :=
  pyEndsWith (pyLower p) ".png" || pyEndsWith (pyLower p) ".jpg" ||
    pyEndsWith (pyLower p) ".jpeg" || pyEndsWith (pyLower p) ".webp"

/-- The test `file_path.lower().endswith('.pdf')`. -/
def isPdfExt (p : String) : Bool := pyEndsWith (pyLower p) ".pdf"

/-- The tail of `ingest_file` after the `try/except` extraction block
(ingest.py lines 80-96): split into chunks, embed (`FAISS.from_documents`,
modelled as succeeding), merge into or create the persisted index, then
`save_metadata`.  A `KeyError` raised inside `save_metadata` propagates out
of `ingest_file` (it is outside the `try`), after the index was saved. -/
def ingest_file_rest (env : Env) (st : St)
    (original_filename category summary : String) (pages : List Document) :
    Except PyErr IngestResult × St × List Step :=
  let chunks := env.splitChunks pages
  let new_db := chunks
  let index :=
    match st.faissIndex with
    | some old => if env.loadIndexOk then old ++ new_db else new_db
    | none => new_db
  let st1 : St := { st with faissIndex := some index }
  match save_metadata original_filename category summary st.docStore with
  | .error e => (.error e, st1, [.extract, .chunk, .embed, .saveIndex])
  | .ok newStore =>
      (.ok (.success category summary), { st1 with docStore := newStore },
        [.extract, .chunk, .embed, .saveIndex, .saveMetadata])

/-- Function `ingest_file` (ingest.py lines 53-96).  The triple is
(result or uncaught exception, resulting on-disk state, step trace). -/
def ingest_file (env : Env) (st : St) (file_path : String) :
    Except PyErr IngestResult × St × List Step :=
  let original_filename := original_filename_of file_path
  if isImageExt file_path then
    match process_image_with_gemini env file_path with
    | .error m => (.ok (.err ("Error: " ++ m)), st, [.extract])
    | .ok (category, raw_text) =>
      let pages := [⟨raw_text, file_path, some 1⟩]
      let summary := pySlice raw_text 200 ++ "..."
      ingest_file_rest env st original_filename category summary pages
  else if isPdfExt file_path then
    match extract_text_from_pdf env file_path with
    | .error m => (.ok (.err ("Error: " ++ m)), st, [.extract])
    | .ok raw_text =>
      if (pyStrip raw_text).data.isEmpty then
        (.ok (.err "PDF is empty."), st, [.extract])
      else
        let pages := [⟨raw_text, file_path, some 1⟩]
        match env.classifyLLM ("Classify: [Resume, Invoice, General]. Text: " ++
            pySlice raw_text 500) with
        | .ok content =>
            ingest_file_rest env st original_filename (pyStrip content)
              (pyReplaceNlSpace (pySlice raw_text 200) ++ "...") pages
        | .error () =>
            ingest_file_rest env st original_filename "General" "No summary." pages
  else (.ok (.err "Unsupported format."), st, [])

/-! ## Auth layer (`src/backend/main.py` lines 23-98) -/

def SECRET_KEY : String := "SECRET_KEY"

def ALGORITHM : String := "HS256"

def ACCESS_TOKEN_EXPIRE_MINUTES : Nat := 60

/-- A user record in `users.json`; `/signup` (main.py line 87) stores exactly
`creds.dict()`, i.e. a username and a password. -/
structure UserCredentials where
  username : String
  password : String
  deriving DecidableEq, Repr

/-- A JWT, modelled symbolically: the claims it carries and, in place of the
HMAC, the key it was signed with and the algorithm named in its header.
`key` equality stands for signature verification (the HMAC computation itself
is vendor code in `python-jose`). -/
structure Token where
  sub : Option String
  exp : Nat
  key : String
  alg : String
  deriving DecidableEq, Repr

/-- The decoded JWT payload. -/
structure Payload where
  sub : Option String
  exp : Nat
  deriving DecidableEq, Repr

/-- The `jose` errors surfaced as `JWTError` (all caught alike by main.py line 73;
`ExpiredSignatureError` is a `JWTError`). -/
inductive JWTError where
  | invalidSignature
  | badAlgorithm
  | expiredSignature
  deriving DecidableEq, Repr

/-- Model of `jwt.encode` + `create_access_token` (main.py lines 57-61): copy the data
(here its only binding, `"sub"`), add `"exp" = utcnow + 60 minutes`, and sign
with `SECRET_KEY` under `HS256`.  Time is in seconds. -/
def create_access_token (now : Nat) (data_sub : Option String) : Token :=
  { sub := data_sub, exp := now + ACCESS_TOKEN_EXPIRE_MINUTES * 60,
    key := SECRET_KEY, alg := ALGORITHM }

/-- Model of `jwt.decode(token, key, algorithms=…)` at time `now`: reject a token whose
signature does not verify under `key`, whose algorithm is not allowed, or
whose `exp` has passed; otherwise return the payload. -/
def jwt_decode (token : Token) (key : String) (algorithms : List String) (now : Nat) :
    Except JWTError Payload :=
  if token.key ≠ key then .error .invalidSignature
  else if token.alg ∉ algorithms then .error .badAlgorithm
  else if token.exp < now then .error .expiredSignature
  else .ok { sub := token.sub, exp := token.exp }

/-- Dependency `get_current_user` (main.py lines 63-78): decode the bearer token, read
the `"sub"` claim, and look the username up in `users.json`; every failure is
the same HTTP 401.  The result is the `User` (its username). -/
def get_current_user (users : List UserCredentials) (token : Token) (now : Nat) :
    Except Nat String :=
  match jwt_decode token SECRET_KEY [ALGORITHM] now with
  | .error _ => .error 401
  | .ok payload =>
    match payload.sub with
    | none => .error 401
    | some username =>
      match users.find? (fun u => u.username == username) with
      | none => .error 401
      | some user_data => .ok user_data.username

/-- The body of `/login`'s success response. -/
structure LoginResponse where
  token : Token
  username : String
  deriving DecidableEq, Repr

/-- Route `/login` (main.py lines 91-98): find a user matching both username and
password; on success issue a token for that username, otherwise HTTP 401. -/
def login (users : List UserCredentials) (creds : UserCredentials) (now : Nat) :
    Except Nat LoginResponse :=
  match users.find? (fun u => u.username == creds.username &&
      u.password == creds.password) with
  | some u => .ok { token := create_access_token now (some u.username),
                    username := u.username }
  | none => .error 401

/-! ## Document endpoints (`src/backend/main.py` lines 102-154) -/

/-- Route `/documents` (main.py lines 102-106): return the stored records whose
`owner` field equals the logged-in user's username
(`d.get("owner") == current_user.username`; a record without the key compares
unequal to any username). -/
def list_documents (docs : List JsonObj) (username : String) : List JsonObj :=
  docs.filter (fun d => jget d "owner" == some username)

/-- Since `ingest_file` is defined with exactly one parameter (`file_path`,
ingest.py line 53), so a call with any other number of positional arguments
raises `TypeError` before the function body runs. -/
def call_ingest_file (env : Env) (st : St) (args : List String) :
    Except PyErr IngestResult × St × List Step :=
  match args with
  | [file_path] => ingest_file env st file_path
  | _ => (.error .typeError, st, [])

/-- Server-side state seen by `/upload`: the set of existing files in the
working directory, plus the ingest state. -/
structure UploadSt where
  files : List String
  ingest : St
  deriving DecidableEq, Repr

/-- Route `/upload` (main.py lines 108-122): write `temp_<filename>`, call
`ingest_file(temp_filename, current_user.username)` — two arguments, as on
line 118 — then remove the temp file if it exists and return the result.
An exception from the call propagates, skipping the removal. -/
def upload_document (env : Env) (st : UploadSt) (filename username : String) :
    Except PyErr IngestResult × UploadSt × List Step :=
  let temp_filename := "temp_" ++ filename
  let files1 := if temp_filename ∈ st.files then st.files else temp_filename :: st.files
  match call_ingest_file env st.ingest [temp_filename, username] with
  | (.error e, ist, tr) => (.error e, { files := files1, ingest := ist }, tr)
  | (.ok result, ist, tr) =>
      let files2 := if temp_filename ∈ files1 then files1.erase temp_filename else files1
      (.ok result, { files := files2, ingest := ist }, tr)

/-- The value `metadata.get('page', 'Unknown')` rendered into the citation f-string. -/
def pageRef (d : Document) : String :=
  match d.page with
  | some n => toString n
  | none => "Unknown"

/-- Response of `/search`, instrumented with the list of queries sent to the
RetrievalQA chain (empty when no model was invoked). -/
structure SearchOut where
  answer : String
  citation : Option String
  qaQueries : List String
  deriving DecidableEq, Repr

/-- Route `/search` (main.py lines 124-136).  `qa` is the RetrievalQA chain built
from the loaded index, the embedding model and the generative model: given the
query it yields `(response['result'], response['source_documents'])`.  When
`faiss_index` does not exist the offline answer is returned without building
or invoking the chain; when the retrieval returns no source documents,
`response['source_documents'][0]` raises `IndexError`. -/
def search_documents (qa : String → String × List Document) (st : St) (query : String) :
    Except PyErr SearchOut :=
  if st.faissIndex.isNone then
    .ok { answer := "System offline. Please upload a document first.",
          citation := none, qaQueries := [] }
  else
    match qa query with
    | (_result, []) => .error .indexError
    | (result, s0 :: _) =>
        .ok { answer := result,
              citation := some ("Source: Page " ++ pageRef s0),
              qaQueries := [query] }

/-- The filename test of the comprehension on main.py line 141:
`d['filename'] in selection.filenames` (for a record that has the key). -/
def matchesSel (sel : List String) (d : JsonObj) : Bool :=
  match jget d "filename" with
  | some f => sel.contains f
  | none => false

/-- The comprehension `[d for d in all_docs if d['filename'] in selection.filenames]`
(main.py line 141); `d['filename']` raises `KeyError` when absent. -/
def selectByFilename (sel : List String) : List JsonObj → Except PyErr (List JsonObj)
  | [] => .ok []
  | d :: ds =>
    match jget d "filename" with
    | none => .error .keyError
    | some f =>
      match selectByFilename sel ds with
      | .error e => .error e
      | .ok rest => .ok (if sel.contains f then d :: rest else rest)

/-- One line of `combined_text` (main.py line 146):
`f"- File: {d['filename']} ({d['category']}): {d.get('summary', '')}\n"`. -/
def crossLine (d : JsonObj) : Except PyErr String :=
  match jget d "filename" with
  | none => .error .keyError
  | some f =>
    match jget d "category" with
    | none => .error .keyError
    | some c => .ok ("- File: " ++ f ++ " (" ++ c ++ "): " ++ jgetD d "summary" "" ++ "\n")

/-- The `combined_text` accumulation loop over the selected records. -/
def combinedText : List JsonObj → Except PyErr String
  | [] => .ok ""
  | d :: ds =>
    match crossLine d with
    | .error e => .error e
    | .ok line =>
      match combinedText ds with
      | .error e => .error e
      | .ok rest => .ok (line ++ rest)

/-- Response of `/cross-summary`, instrumented with the records that were
selected and the prompts sent to the generative model. -/
structure CrossOut where
  selected : List JsonObj
  cross_summary : String
  llmPrompts : List String
  deriving DecidableEq, Repr

/-- Route `/cross-summary` (main.py lines 138-154).  Note the route takes no
authenticated user: the selection is filtered by filename only.  `llm` is the
generative model, given the assembled prompt. -/
def generate_cross_summary (llm : String → String) (docs : List JsonObj)
    (sel : List String) : Except PyErr CrossOut :=
  match selectByFilename sel docs with
  | .error e => .error e
  | .ok selected =>
    if selected.isEmpty then
      .ok { selected := selected,
            cross_summary := "No matching documents found in selection.",
            llmPrompts := [] }
    else
      match combinedText selected with
      | .error e => .error e
      | .ok combined =>
        let prompt := "You are an Intelligence Analyst. Write a connection report based ONLY on these documents:\n"
            ++ combined ++ "\nIdentify relationships and combine information."
        .ok { selected := selected, cross_summary := llm prompt, llmPrompts := [prompt] }

/-! ## Formalised claim statements and concrete test data -/

/-- One line of the cross-summary prompt for a (well-formed) stored record. -/
def lineOf (d : JsonObj) : String :=
  "- File: " ++ jgetD d "filename" "" ++ " (" ++ jgetD d "category" "" ++ "): "
    ++ jgetD d "summary" "" ++ "\n"

/-- The filenames of a store, in order (`none` for a record without the key). -/
def fnames (l : List JsonObj) : List (Option String) :=
  l.map (fun d => jget d "filename")

/-- The claim that document access is owner-scoped across the endpoints that
serve stored records: `/documents` returns only records owned by the
requesting user, and `/cross-summary` — which receives no user identity at
all — likewise serves a requester only records that requester owns (so the
records it serves would have to be owned by every possible requester). -/
def docAccessOwnerScoped : Prop :=
  (∀ docs username, ∀ d ∈ list_documents docs username, jget d "owner" = some username) ∧
  (∀ (llm : String → String) docs sel username out,
      generate_cross_summary llm docs sel = .ok out →
      ∀ d ∈ out.selected, jget d "owner" = some username)

/-- The claim that after every successful ingestion the metadata store holds a
record for the document carrying all five fields
`filename`, `category`, `summary`, `owner`, `timestamp`. -/
def ingestRecordsFiveFields : Prop :=
  ∀ env st p c s st' tr,
    ingest_file env st p = (.ok (.success c s), st', tr) →
    ∃ d ∈ st'.docStore,
      jget d "filename" = some (original_filename_of p) ∧
      (jget d "category").isSome ∧ (jget d "summary").isSome ∧
      (jget d "owner").isSome ∧ (jget d "timestamp").isSome

/-- A vendor environment for concrete runs: a one-page PDF reading
`"Hello world"`, a classifier answering `"Resume"`, chunking that keeps the
page as a single chunk. -/
def envA : Env :=
  { readImage := fun _ => .ok (), visionLLM := fun _ => .ok "img",
    pdfPages := fun _ => .ok ["Hello world"],
    classifyLLM := fun _ => .ok "Resume",
    splitChunks := fun pages => pages, loadIndexOk := true }

/-- Fresh on-disk state: no stored records, no index. -/
def st0 : St := { docStore := [], faissIndex := none }

/-- Like `envA` but the PDF's only page extracts to whitespace. -/
def envBlank : Env :=
  { readImage := fun _ => .ok (), visionLLM := fun _ => .ok "img",
    pdfPages := fun _ => .ok ["  "],
    classifyLLM := fun _ => .ok "Resume",
    splitChunks := fun pages => pages, loadIndexOk := true }

/-- A stored record owned by user `"alice"`. -/
def aliceDoc : JsonObj :=
  [("filename", "report.pdf"), ("category", "General"),
   ("summary", "classified findings"), ("owner", "alice")]

/-- The on-disk state after ingesting `temp_report.pdf` under `envA` from
`st0`. -/
def stA : St :=
  { docStore := [mkRecord "report.pdf" "Resume" "Hello world ..."],
    faissIndex := some [⟨"Hello world\n", "temp_report.pdf", some 1⟩] }

/-- Concatenation of the prompt lines, in order. -/
def joinLines : List String → String
  | [] => ""
  | a :: l => a ++ joinLines l

/-- The `/cross-summary` response for the store `[aliceDoc]` and the
selection `["report.pdf"]`, under a generative model that answers
`"report"`. -/
def crossOutAlice : CrossOut :=
  { selected := [aliceDoc],
    cross_summary := "report",
    llmPrompts := ["You are an Intelligence Analyst. Write a connection report based ONLY on these documents:\n- File: report.pdf (General): classified findings\n\nIdentify relationships and combine information."] }

/-! ## Helper lemmas: `removeTemp` and `basename` -/

theorem removeTemp_marker_append (l : List Char) :
    removeTemp (tempMarker ++ l) = removeTemp l := rfl

theorem removeTemp_len_aux : ∀ (n : Nat) (l : List Char), l.length ≤ n →
    (removeTemp l).length ≤ l.length := by
  intro n
  induction n with
  | zero =>
    intro l h
    have : l = [] := List.length_eq_zero.mp (Nat.le_zero.mp h)
    subst this; simp [removeTemp]
  | succ n ih =>
    intro l h
    rw [removeTemp.eq_def]
    split
    · simp
    · next _ rest =>
      have := ih rest (by simp at h; omega)
      simp only [List.length_cons]; omega
    · next _ c rest _ =>
      have := ih rest (by simp at h; omega)
      simp only [List.length_cons]; omega

theorem removeTemp_length_le (l : List Char) : (removeTemp l).length ≤ l.length :=
  removeTemp_len_aux l.length l (Nat.le_refl _)

theorem removeTemp_eq_self_aux : ∀ (n : Nat) (l : List Char), l.length ≤ n →
    ¬ tempMarker <:+: l → removeTemp l = l := by
  intro n
  induction n with
  | zero =>
    intro l h _
    have : l = [] := List.length_eq_zero.mp (Nat.le_zero.mp h)
    subst this; simp [removeTemp]
  | succ n ih =>
    intro l h hinf
    rw [removeTemp.eq_def]
    split
    · rfl
    · next _ rest =>
      exact absurd (List.IsPrefix.isInfix ⟨rest, rfl⟩) hinf
    · next _ c rest _ =>
      have hrest : ¬ tempMarker <:+: rest := fun hi => hinf (List.infix_cons hi)
      rw [ih rest (by simp at h; omega) hrest]

/-- If a character list does not contain the substring `"temp_"`, then
`replace("temp_", "")` leaves it unchanged. -/
theorem removeTemp_eq_self {l : List Char} (h : ¬ tempMarker <:+: l) :
    removeTemp l = l :=
  removeTemp_eq_self_aux l.length l (Nat.le_refl _) h

theorem removeTemp_length_lt_aux : ∀ (n : Nat) (l : List Char), l.length ≤ n →
    tempMarker <:+: l → (removeTemp l).length < l.length := by
  intro n
  induction n with
  | zero =>
    intro l h hinf
    have : l = [] := List.length_eq_zero.mp (Nat.le_zero.mp h)
    subst this
    exact absurd (List.IsInfix.sublist hinf).length_le (by simp [tempMarker])
  | succ n ih =>
    intro l h hinf
    rw [removeTemp.eq_def]
    split
    · next =>
      exact absurd (List.IsInfix.sublist hinf).length_le (by simp [tempMarker])
    · next _ rest =>
      have := removeTemp_length_le rest
      simp only [List.length_cons]; omega
    · next _ c rest hne =>
      rcases List.infix_cons_iff.mp hinf with hpre | hinf'
      · rcases hpre with ⟨t, ht⟩
        simp only [tempMarker, List.cons_append, List.cons.injEq, List.nil_append] at ht
        exact (hne t ht.1.symm ht.2.symm).elim
      · have := ih rest (by simp at h; omega) hinf'
        simp only [List.length_cons]; omega

/-- If a character list contains the substring `"temp_"`, then
`replace("temp_", "")` strictly shortens it. -/
theorem removeTemp_length_lt {l : List Char} (h : tempMarker <:+: l) :
    (removeTemp l).length < l.length :=
  removeTemp_length_lt_aux l.length l (Nat.le_refl _) h

/-- Function `os.path.basename` is the identity on names without a `'/'`. -/
theorem basename_eq_self {s : String} (h : '/' ∉ s.data) : basename s = s := by
  unfold basename
  have htw : s.data.reverse.takeWhile (fun c => !(c == '/')) = s.data.reverse := by
    rw [List.takeWhile_eq_self_iff]
    intro x hx
    simp only [Bool.not_eq_true', beq_eq_false_iff_ne, ne_eq]
    intro he
    exact h (he ▸ List.mem_reverse.mp hx)
  rw [htw, List.reverse_reverse]

/-! ## Helper lemmas: the ingestion pipeline -/

theorem save_metadata_ok {fn c s : String} {data out : List JsonObj}
    (h : save_metadata fn c s data = .ok out) :
    ∃ pruned, removeByFilename fn data = .ok pruned ∧
      out = pruned ++ [mkRecord fn c s] := by
  unfold save_metadata at h
  cases hr : removeByFilename fn data with
  | error e => rw [hr] at h; simp at h
  | ok pruned =>
    rw [hr] at h
    simp only [Except.ok.injEq] at h
    exact ⟨pruned, rfl, h.symm⟩

theorem ingest_file_rest_success {env : Env} {st : St}
    {fn cat sm : String} {pages : List Document}
    {c s : String} {st' : St} {tr : List Step}
    (h : ingest_file_rest env st fn cat sm pages = (.ok (.success c s), st', tr)) :
    c = cat ∧ s = sm ∧
    tr = [.extract, .chunk, .embed, .saveIndex, .saveMetadata] ∧
    save_metadata fn cat sm st.docStore = .ok st'.docStore := by
  simp only [ingest_file_rest] at h
  cases hsm : save_metadata fn cat sm st.docStore with
  | error e => rw [hsm] at h; simp at h
  | ok newStore =>
    rw [hsm] at h
    simp only [Prod.mk.injEq, Except.ok.injEq, IngestResult.success.injEq] at h
    obtain ⟨⟨hc, hs⟩, hst, htr⟩ := h
    refine ⟨hc.symm, hs.symm, htr.symm, ?_⟩
    rw [← hst]

theorem ingest_file_rest_ne_err {env : Env} {st : St}
    {fn cat sm : String} {pages : List Document}
    {m : String} {st' : St} {tr : List Step} :
    ingest_file_rest env st fn cat sm pages ≠ (.ok (.err m), st', tr) := by
  intro h
  simp only [ingest_file_rest] at h
  cases hsm : save_metadata fn cat sm st.docStore with
  | error e => rw [hsm] at h; simp at h
  | ok newStore => rw [hsm] at h; simp at h

/-- Every successful run of `ingest_file` recorded, as its final step, the
three-field record for `original_filename_of file_path` via `save_metadata`,
and its trace is the full pipeline. -/
theorem ingest_file_success {env : Env} {st : St} {p : String}
    {c s : String} {st' : St} {tr : List Step}
    (h : ingest_file env st p = (.ok (.success c s), st', tr)) :
    tr = [.extract, .chunk, .embed, .saveIndex, .saveMetadata] ∧
    save_metadata (original_filename_of p) c s st.docStore = .ok st'.docStore := by
  unfold ingest_file at h
  split at h
  · split at h
    · simp at h
    · next pr hpr =>
      obtain ⟨hc, hs, htr, hsave⟩ := ingest_file_rest_success h
      subst hc hs
      exact ⟨htr, hsave⟩
  · split at h
    · split at h
      · simp at h
      · next raw hex =>
        split at h
        · simp at h
        · split at h
          · next content hcl =>
            obtain ⟨hc, hs, htr, hsave⟩ := ingest_file_rest_success h
            subst hc hs
            exact ⟨htr, hsave⟩
          · obtain ⟨hc, hs, htr, hsave⟩ := ingest_file_rest_success h
            subst hc hs
            exact ⟨htr, hsave⟩
    · simp at h

/-- A returned error dictionary leaves the trace at `[]` or `[.extract]` and
the state untouched. -/
theorem ingest_file_err {env : Env} {st : St} {p : String}
    {m : String} {st' : St} {tr : List Step}
    (h : ingest_file env st p = (.ok (.err m), st', tr)) :
    (tr = [] ∨ tr = [.extract]) ∧ st' = st := by
  unfold ingest_file at h
  split at h
  · split at h
    · simp only [Prod.mk.injEq] at h
      exact ⟨Or.inr h.2.2.symm, h.2.1.symm⟩
    · exact absurd h ingest_file_rest_ne_err
  · split at h
    · split at h
      · simp only [Prod.mk.injEq] at h
        exact ⟨Or.inr h.2.2.symm, h.2.1.symm⟩
      · split at h
        · simp only [Prod.mk.injEq] at h
          exact ⟨Or.inr h.2.2.symm, h.2.1.symm⟩
        · split at h
          · exact absurd h ingest_file_rest_ne_err
          · exact absurd h ingest_file_rest_ne_err
    · simp only [Prod.mk.injEq] at h
      exact ⟨Or.inl h.2.2.symm, h.2.1.symm⟩

/-! ## Claims -/

/-- C1: every authenticated `/upload` request calls
`ingest_file(temp_filename, current_user.username)` with two arguments while
`ingest_file` takes exactly one parameter, so the call raises `TypeError`
before any ingestion step executes, the success response is unreachable, and
`temp_<filename>` is never removed (the `os.remove` is skipped when the
exception propagates). -/
theorem upload_call_type_error :
    ∀ (env : Env) (st : UploadSt) (filename username : String),
    (upload_document env st filename username).1 = .error .typeError ∧
    (upload_document env st filename username).2.2 = [] ∧
    (upload_document env st filename username).2.1.ingest = st.ingest ∧
    ("temp_" ++ filename) ∈ (upload_document env st filename username).2.1.files := by
  intro env st filename username
  refine ⟨rfl, rfl, rfl, ?_⟩
  simp only [upload_document, call_ingest_file]
  by_cases hmem : ("temp_" ++ filename) ∈ st.files
  · simp [hmem]
  · simp [hmem]

/-- C10: the filename recorded in metadata is the uploaded file's basename
with every occurrence of the substring `"temp_"` removed — not only the
handler's added prefix.  Part one ties the recorded filename to
`original_filename_of`; for an uploaded name containing `"temp_"` the stored
name differs from it, while a name not containing `"temp_"` is stored
unchanged; `temp_my_temp_notes.pdf` is stored as `my_notes.pdf`. -/
theorem stored_filename_strips_temp :
    (∀ env st p c s st' tr,
        ingest_file env st p = (.ok (.success c s), st', tr) →
        ∃ pruned, st'.docStore = pruned ++ [mkRecord (original_filename_of p) c s]) ∧
    (∀ name : String, '/' ∉ name.data → tempMarker <:+: name.data →
        original_filename_of ("temp_" ++ name) ≠ name) ∧
    (∀ name : String, '/' ∉ name.data → ¬ tempMarker <:+: name.data →
        original_filename_of ("temp_" ++ name) = name) ∧
    original_filename_of "temp_my_temp_notes.pdf" = "my_notes.pdf" := by
  have hdata : ∀ name : String, '/' ∉ name.data →
      (original_filename_of ("temp_" ++ name)).data = removeTemp name.data := by
    intro name h
    have hns : '/' ∉ ("temp_" ++ name).data := by
      rw [String.data_append]
      intro hmem
      rcases List.mem_append.mp hmem with h1 | h2
      · exact absurd h1 (by decide)
      · exact h h2
    unfold original_filename_of
    rw [basename_eq_self hns]
    show removeTemp ("temp_" ++ name).data = _
    rw [String.data_append]
    exact removeTemp_marker_append name.data
  refine ⟨?_, ?_, ?_, by decide⟩
  · intro env st p c s st' tr h
    obtain ⟨-, hsave⟩ := ingest_file_success h
    obtain ⟨pruned, -, hout⟩ := save_metadata_ok hsave
    exact ⟨pruned, hout⟩
  · intro name hs hinf heq
    have hd := hdata name hs
    rw [heq] at hd
    have hlen := congrArg List.length hd
    have := removeTemp_length_lt hinf
    omega
  · intro name hs hinf
    have hd := hdata name hs
    rw [removeTemp_eq_self hinf] at hd
    exact String.ext hd

/-- Witness for `stored_filename_strips_temp` at concrete inputs: a
successful ingest records the stripped filename; `my_temp_notes.pdf` is
stored under a different name, `notes.pdf` unchanged. -/
theorem stored_filename_strips_temp_witness :
    (ingest_file envA st0 "temp_report.pdf" =
        (.ok (.success "Resume" "Hello world ..."), stA,
          [.extract, .chunk, .embed, .saveIndex, .saveMetadata]) ∧
      ∃ pruned, stA.docStore =
        pruned ++ [mkRecord (original_filename_of "temp_report.pdf") "Resume" "Hello world ..."]) ∧
    ('/' ∉ "my_temp_notes.pdf".data ∧ tempMarker <:+: "my_temp_notes.pdf".data ∧
      original_filename_of ("temp_" ++ "my_temp_notes.pdf") ≠ "my_temp_notes.pdf") ∧
    ('/' ∉ "notes.pdf".data ∧ ¬ tempMarker <:+: "notes.pdf".data ∧
      original_filename_of ("temp_" ++ "notes.pdf") = "notes.pdf") :=
  ⟨⟨rfl, stored_filename_strips_temp.1 envA st0 "temp_report.pdf" "Resume"
      "Hello world ..." stA [.extract, .chunk, .embed, .saveIndex, .saveMetadata] rfl⟩,
    ⟨by decide, by decide,
      stored_filename_strips_temp.2.1 "my_temp_notes.pdf" (by decide) (by decide)⟩,
    ⟨by decide, by decide,
      stored_filename_strips_temp.2.2.1 "notes.pdf" (by decide) (by decide)⟩⟩

/-- C4: ingestion runs the pipeline in the fixed order
extract → chunk → embed → merge-into-index → persist-metadata (so the
metadata record is written only after the index has been merged or created
and saved), and when extraction fails or returns an error no later step
runs and the on-disk state is untouched. -/
theorem ingest_pipeline_order :
    ∀ (env : Env) (st : St) (p : String),
    (∀ c s st' tr, ingest_file env st p = (.ok (.success c s), st', tr) →
        tr = [.extract, .chunk, .embed, .saveIndex, .saveMetadata]) ∧
    (∀ m st' tr, ingest_file env st p = (.ok (.err m), st', tr) →
        (tr = [] ∨ tr = [.extract]) ∧ st' = st) :=
  fun _ _ _ =>
    ⟨fun _ _ _ _ h => (ingest_file_success h).1,
     fun _ _ _ h => ingest_file_err h⟩

/-- Witness for `ingest_pipeline_order`: a successful PDF ingest produces the
full ordered trace; an unsupported extension stops with no steps run and no
state change. -/
theorem ingest_pipeline_order_witness :
    (ingest_file envA st0 "temp_report.pdf").2.2 =
      [.extract, .chunk, .embed, .saveIndex, .saveMetadata] ∧
    ((ingest_file envA st0 "notes.txt").2.2 = [] ∨
      (ingest_file envA st0 "notes.txt").2.2 = [.extract]) ∧
    (ingest_file envA st0 "notes.txt").2.1 = st0 :=
  ⟨(ingest_pipeline_order envA st0 "temp_report.pdf").1 "Resume" "Hello world ..."
      (ingest_file envA st0 "temp_report.pdf").2.1
      (ingest_file envA st0 "temp_report.pdf").2.2 rfl,
   ((ingest_pipeline_order envA st0 "notes.txt").2 "Unsupported format."
      (ingest_file envA st0 "notes.txt").2.1
      (ingest_file envA st0 "notes.txt").2.2 rfl).1,
   ((ingest_pipeline_order envA st0 "notes.txt").2 "Unsupported format."
      (ingest_file envA st0 "notes.txt").2.1
      (ingest_file envA st0 "notes.txt").2.2 rfl).2⟩

/-- C3 counterexample: the claim that every successful ingestion stores a
record with all five fields (`filename`, `category`, `summary`, `owner`,
`timestamp`) fails — the record written for `temp_report.pdf` has no
`owner` and no `timestamp` key. -/
theorem metadata_record_missing_owner_timestamp : ¬ ingestRecordsFiveFields := by
  intro h
  have h2 := h envA st0 "temp_report.pdf" "Resume" "Hello world ..." stA
      [.extract, .chunk, .embed, .saveIndex, .saveMetadata] rfl
  exact absurd h2 (by decide)

/-- C3 amended: after every successful ingestion the metadata store contains
a record for the document carrying the three fields `filename`, `category`
and `summary` (the code writes no `owner` and no `timestamp`). -/
theorem ingest_records_three_fields :
    ∀ env st p c s st' tr,
    ingest_file env st p = (.ok (.success c s), st', tr) →
    ∃ d ∈ st'.docStore,
      jget d "filename" = some (original_filename_of p) ∧
      jget d "category" = some c ∧ jget d "summary" = some s := by
  intro env st p c s st' tr h
  obtain ⟨-, hsave⟩ := ingest_file_success h
  obtain ⟨pruned, -, hout⟩ := save_metadata_ok hsave
  refine ⟨mkRecord (original_filename_of p) c s, ?_, rfl, rfl, rfl⟩
  rw [hout]
  exact List.mem_append_right _ (List.mem_singleton.mpr rfl)

/-- Witness for `ingest_records_three_fields` on the concrete
`temp_report.pdf` run. -/
theorem ingest_records_three_fields_witness :
    ∃ d ∈ stA.docStore,
      jget d "filename" = some (original_filename_of "temp_report.pdf") ∧
      jget d "category" = some "Resume" ∧ jget d "summary" = some "Hello world ..." :=
  ingest_records_three_fields envA st0 "temp_report.pdf" "Resume" "Hello world ..."
    stA [.extract, .chunk, .embed, .saveIndex, .saveMetadata] rfl

/-! ## Helper lemmas: the metadata store and the selection filters -/

/-- When every record has a `filename` key, the pruning comprehension of
`save_metadata` is an ordinary filter. -/
theorem removeByFilename_wf (fn : String) {data : List JsonObj}
    (h : ∀ d ∈ data, (jget d "filename").isSome) :
    removeByFilename fn data =
      .ok (data.filter (fun d => decide (jget d "filename" ≠ some fn))) := by
  induction data with
  | nil => rfl
  | cons d ds ih =>
    obtain ⟨f, hf⟩ := Option.isSome_iff_exists.mp (h d (List.mem_cons_self d ds))
    have hds := ih (fun x hx => h x (List.mem_cons_of_mem _ hx))
    unfold removeByFilename
    rw [hf, hds, List.filter_cons]
    by_cases hfe : f = fn
    · subst hfe
      simp [hf]
    · simp [hf, hfe]

/-- When every record has a `filename` key, the selection comprehension of
`/cross-summary` is an ordinary filter by filename membership. -/
theorem selectByFilename_wf (sel : List String) {docs : List JsonObj}
    (h : ∀ d ∈ docs, (jget d "filename").isSome) :
    selectByFilename sel docs = .ok (docs.filter (matchesSel sel)) := by
  induction docs with
  | nil => rfl
  | cons d ds ih =>
    obtain ⟨f, hf⟩ := Option.isSome_iff_exists.mp (h d (List.mem_cons_self d ds))
    have hds := ih (fun x hx => h x (List.mem_cons_of_mem _ hx))
    unfold selectByFilename
    rw [hf, hds, List.filter_cons]
    by_cases hc : sel.contains f
    · simp [matchesSel, hf, hc]
    · simp [matchesSel, hf, hc]

/-- When every record has `filename` and `category` keys, the
`combined_text` loop produces exactly one line per record, in order. -/
theorem combinedText_wf : ∀ {l : List JsonObj},
    (∀ d ∈ l, (jget d "filename").isSome ∧ (jget d "category").isSome) →
    combinedText l = .ok (joinLines (l.map lineOf)) := by
  intro l
  induction l with
  | nil => intro _; rfl
  | cons d ds ih =>
    intro h
    obtain ⟨f, hf⟩ := Option.isSome_iff_exists.mp (h d (List.mem_cons_self d ds)).1
    obtain ⟨c, hc⟩ := Option.isSome_iff_exists.mp (h d (List.mem_cons_self d ds)).2
    have hds := ih (fun x hx => h x (List.mem_cons_of_mem _ hx))
    unfold combinedText crossLine
    rw [hf, hc, hds]
    simp only [List.map_cons, joinLines, lineOf, jgetD, hf, hc, Option.getD_some]

/-! ## Claims about the metadata store and the endpoints -/

/-- C9: filename uniqueness is an invariant of the metadata store.
For a well-formed store, `save_metadata` succeeds, its output is the store
with all records of the same filename removed and the new record appended;
hence pairwise-distinct filenames are preserved, and the only record with
the written filename is the new one (replacement, not duplication). -/
theorem save_metadata_filename_unique :
    ∀ (filename category summary : String) (data : List JsonObj),
    (∀ d ∈ data, (jget d "filename").isSome) →
    ∃ out, save_metadata filename category summary data = .ok out ∧
      out = data.filter (fun d => decide (jget d "filename" ≠ some filename))
        ++ [mkRecord filename category summary] ∧
      ((fnames data).Nodup → (fnames out).Nodup) ∧
      out.filter (fun d => decide (jget d "filename" = some filename))
        = [mkRecord filename category summary] := by
  intro fn c s data hwf
  have hrm := removeByFilename_wf fn hwf
  refine ⟨_, ?_, rfl, ?_, ?_⟩
  · unfold save_metadata
    rw [hrm]
  · intro hnd
    unfold fnames at hnd ⊢
    rw [List.map_append, List.nodup_append]
    refine ⟨hnd.sublist (List.Sublist.map _ (List.filter_sublist data)), by simp, ?_⟩
    intro x hx hy
    simp only [List.map_cons, List.map_nil, List.mem_singleton] at hy
    subst hy
    obtain ⟨d, hd, hjd⟩ := List.mem_map.mp hx
    have hpred := (List.mem_filter.mp hd).2
    rw [hjd] at hpred
    simp only [decide_eq_true_eq] at hpred
    exact hpred rfl
  · rw [List.filter_append]
    have h1 : (data.filter fun d => decide (jget d "filename" ≠ some fn)).filter
        (fun d => decide (jget d "filename" = some fn)) = [] := by
      rw [List.filter_eq_nil_iff]
      intro d hd
      have := (List.mem_filter.mp hd).2
      simp_all
    rw [h1]
    simp only [List.nil_append, List.filter_cons, decide_eq_true_eq]
    rw [if_pos (show jget (mkRecord fn c s) "filename" = some fn from rfl)]
    rfl

/-- Witness for `save_metadata_filename_unique` on a concrete two-record
store: re-saving `a.pdf` replaces its record. -/
theorem save_metadata_filename_unique_witness :
    (∀ d ∈ [mkRecord "a.pdf" "General" "x", mkRecord "b.pdf" "General" "y"],
        (jget d "filename").isSome) ∧
    ∃ out, save_metadata "a.pdf" "Invoice" "z"
        [mkRecord "a.pdf" "General" "x", mkRecord "b.pdf" "General" "y"] = .ok out ∧
      out = [mkRecord "a.pdf" "General" "x", mkRecord "b.pdf" "General" "y"].filter
          (fun d => decide (jget d "filename" ≠ some "a.pdf"))
        ++ [mkRecord "a.pdf" "Invoice" "z"] ∧
      ((fnames [mkRecord "a.pdf" "General" "x", mkRecord "b.pdf" "General" "y"]).Nodup →
        (fnames out).Nodup) ∧
      out.filter (fun d => decide (jget d "filename" = some "a.pdf"))
        = [mkRecord "a.pdf" "Invoice" "z"] :=
  ⟨by decide, save_metadata_filename_unique "a.pdf" "Invoice" "z"
    [mkRecord "a.pdf" "General" "x", mkRecord "b.pdf" "General" "y"] (by decide)⟩

/-- C2 counterexample: document access is *not* owner-scoped across all
endpoints that serve stored records.  `/cross-summary` receives no user
identity and applies no owner filter: the store holding only a record owned
by `"alice"` serves that record's summary to a request made on behalf of
`"bob"` (or of nobody at all). -/
theorem cross_summary_not_owner_scoped : ¬ docAccessOwnerScoped := by
  intro h
  have h2 := h.2 (fun _ => "report") [aliceDoc] ["report.pdf"] "bob"
      crossOutAlice rfl aliceDoc (by decide)
  exact absurd h2 (by decide)

/-- C2 amended: only `/documents` is owner-scoped — every record it returns
is owned by the requesting user — while `/cross-summary` selects records by
filename alone, independent of any owner or requester identity. -/
theorem owner_scoping_amended :
    (∀ docs username d, d ∈ list_documents docs username →
        jget d "owner" = some username) ∧
    (∀ (llm : String → String) docs sel out,
        (∀ d ∈ docs, (jget d "filename").isSome) →
        generate_cross_summary llm docs sel = .ok out →
        out.selected = docs.filter (matchesSel sel)) := by
  constructor
  · intro docs username d hd
    have := (List.mem_filter.mp hd).2
    exact eq_of_beq this
  · intro llm docs sel out hwf h
    unfold generate_cross_summary at h
    rw [selectByFilename_wf sel hwf] at h
    dsimp only at h
    by_cases he : (docs.filter (matchesSel sel)).isEmpty
    · rw [if_pos he] at h
      cases h
      rfl
    · rw [if_neg he] at h
      cases hct : combinedText (docs.filter (matchesSel sel)) with
      | error e => rw [hct] at h; simp at h
      | ok combined =>
        rw [hct] at h
        cases h
        rfl

/-- Witness for `owner_scoping_amended`: the single record returned to
`"alice"` by `/documents` is hers, and the concrete cross-summary selection
equals the filename filter. -/
theorem owner_scoping_amended_witness :
    (aliceDoc ∈ list_documents [aliceDoc] "alice" ∧
      jget aliceDoc "owner" = some "alice") ∧
    ((∀ d ∈ [aliceDoc], (jget d "filename").isSome) ∧
      crossOutAlice.selected = [aliceDoc].filter (matchesSel ["report.pdf"])) :=
  ⟨⟨by decide, owner_scoping_amended.1 [aliceDoc] "alice" aliceDoc (by decide)⟩,
   ⟨by decide, owner_scoping_amended.2 (fun _ => "report") [aliceDoc] ["report.pdf"]
      crossOutAlice (by decide) rfl⟩⟩

/-- C7: `/cross-summary` selects the stored records whose filename is in the
requested selection, in store order; with no match it answers
`"No matching documents found in selection."` without invoking the
generative model; otherwise it sends the model exactly one prompt built from
one line per selected document. -/
theorem cross_summary_prompt :
    ∀ (llm : String → String) (docs : List JsonObj) (sel : List String),
    (∀ d ∈ docs, (jget d "filename").isSome ∧ (jget d "category").isSome) →
    ∃ out, generate_cross_summary llm docs sel = .ok out ∧
      out.selected = docs.filter (matchesSel sel) ∧
      (out.selected = [] →
        out.cross_summary = "No matching documents found in selection." ∧
        out.llmPrompts = []) ∧
      (out.selected ≠ [] →
        out.llmPrompts =
          ["You are an Intelligence Analyst. Write a connection report based ONLY on these documents:\n"
            ++ joinLines (out.selected.map lineOf)
            ++ "\nIdentify relationships and combine information."] ∧
        out.cross_summary = llm
          ("You are an Intelligence Analyst. Write a connection report based ONLY on these documents:\n"
            ++ joinLines (out.selected.map lineOf)
            ++ "\nIdentify relationships and combine information.")) := by
  intro llm docs sel hwf
  have hsel := selectByFilename_wf sel (fun d hd => (hwf d hd).1)
  unfold generate_cross_summary
  rw [hsel]
  dsimp only
  by_cases he : (docs.filter (matchesSel sel)).isEmpty
  · rw [if_pos he]
    refine ⟨_, rfl, rfl, fun _ => ⟨rfl, rfl⟩, fun hne => absurd ?_ hne⟩
    exact List.isEmpty_iff.mp he
  · rw [if_neg he]
    have hwf2 : ∀ d ∈ docs.filter (matchesSel sel),
        (jget d "filename").isSome ∧ (jget d "category").isSome :=
      fun d hd => hwf d (List.mem_of_mem_filter hd)
    rw [combinedText_wf hwf2]
    refine ⟨_, rfl, rfl, fun hemp => absurd (List.isEmpty_iff.mpr hemp) ?_, fun _ => ⟨rfl, rfl⟩⟩
    simpa using he

/-- Witness for `cross_summary_prompt`: the concrete selection matching
`report.pdf` sends one prompt with one line; a selection matching nothing
answers the fixed message with no model call. -/
theorem cross_summary_prompt_witness :
    ((∀ d ∈ [aliceDoc], (jget d "filename").isSome ∧ (jget d "category").isSome) ∧
      ∃ out, generate_cross_summary (fun _ => "report") [aliceDoc] ["report.pdf"] = .ok out ∧
        out.selected = [aliceDoc].filter (matchesSel ["report.pdf"]) ∧
        (out.selected = [] →
          out.cross_summary = "No matching documents found in selection." ∧
          out.llmPrompts = []) ∧
        (out.selected ≠ [] →
          out.llmPrompts =
            ["You are an Intelligence Analyst. Write a connection report based ONLY on these documents:\n"
              ++ joinLines (out.selected.map lineOf)
              ++ "\nIdentify relationships and combine information."] ∧
          out.cross_summary = (fun _ : String => "report")
            ("You are an Intelligence Analyst. Write a connection report based ONLY on these documents:\n"
              ++ joinLines (out.selected.map lineOf)
              ++ "\nIdentify relationships and combine information."))) ∧
    generate_cross_summary (fun _ => "report") [aliceDoc] ["nothing.pdf"] =
      .ok { selected := [], cross_summary := "No matching documents found in selection.",
            llmPrompts := [] } :=
  ⟨⟨by decide, cross_summary_prompt (fun _ => "report") [aliceDoc] ["report.pdf"] (by decide)⟩,
   rfl⟩

/-! ## Helper lemmas: extensions and blank text -/

/-- A string all of whose characters are whitespace strips to the empty
string (`not raw_text.strip()` is then true). -/
theorem pyStrip_empty_of_blank {s : String} (h : ∀ c ∈ s.data, c.isWhitespace) :
    (pyStrip s).data.isEmpty = true := by
  unfold pyStrip
  have h1 : s.data.dropWhile Char.isWhitespace = [] :=
    List.dropWhile_eq_nil_iff.mpr h
  rw [h1]
  rfl

/-- No extension both ends a given character list and differs from `.pdf`
as a suffix in both directions. -/
theorem not_suffix_of_pdf (ext : List Char)
    (hx : ¬ (".pdf".data <:+ ext)) (hx2 : ¬ (ext <:+ ".pdf".data))
    {L : List Char} (hp : ".pdf".data <:+ L) : ext.isSuffixOf L = false := by
  rw [Bool.eq_false_iff]
  intro hc
  have hsuf := List.isSuffixOf_iff_suffix.mp hc
  rcases List.suffix_or_suffix_of_suffix hsuf hp with h1 | h1
  · exact hx2 h1
  · exact hx h1

/-- A path ending in `.pdf` ends in none of the image extensions. -/
theorem isImageExt_eq_false_of_pdf {p : String} (h : isPdfExt p = true) :
    isImageExt p = false := by
  have hpdf : ".pdf".data <:+ (pyLower p).data := List.isSuffixOf_iff_suffix.mp h
  have h1 := not_suffix_of_pdf ".png".data (by decide) (by decide) hpdf
  have h2 := not_suffix_of_pdf ".jpg".data (by decide) (by decide) hpdf
  have h3 := not_suffix_of_pdf ".jpeg".data (by decide) (by decide) hpdf
  have h4 := not_suffix_of_pdf ".webp".data (by decide) (by decide) hpdf
  unfold isImageExt pyEndsWith
  rw [h1, h2, h3, h4]
  rfl

/-- C5: `ingest_file` rejects bad inputs atomically.  A path whose lowercased
name ends in none of `.png`, `.jpg`, `.jpeg`, `.webp`, `.pdf` yields
`{"error": "Unsupported format."}`; a `.pdf` whose extracted text is empty or
whitespace-only yields `{"error": "PDF is empty."}`; in both cases neither
the FAISS index nor `doc_store.json` is touched (the state is returned
unchanged). -/
theorem ingest_rejects_bad_inputs :
    ∀ (env : Env) (st : St) (p : String),
    ((pyEndsWith (pyLower p) ".png" = false ∧ pyEndsWith (pyLower p) ".jpg" = false ∧
      pyEndsWith (pyLower p) ".jpeg" = false ∧ pyEndsWith (pyLower p) ".webp" = false ∧
      pyEndsWith (pyLower p) ".pdf" = false) →
      ingest_file env st p = (.ok (.err "Unsupported format."), st, [])) ∧
    (∀ raw, isPdfExt p = true →
      extract_text_from_pdf env p = .ok raw →
      (∀ c ∈ raw.data, c.isWhitespace) →
      ingest_file env st p = (.ok (.err "PDF is empty."), st, [.extract])) := by
  intro env st p
  constructor
  · intro ⟨h1, h2, h3, h4, h5⟩
    have himg : isImageExt p = false := by
      unfold isImageExt
      rw [h1, h2, h3, h4]
      rfl
    have hpdf : isPdfExt p = false := h5
    unfold ingest_file
    rw [himg, hpdf]
    rfl
  · intro raw hpdf hex hblank
    have himg := isImageExt_eq_false_of_pdf hpdf
    have hempt := pyStrip_empty_of_blank hblank
    unfold ingest_file
    rw [himg, hpdf]
    dsimp only
    rw [hex]
    dsimp only
    rw [hempt]
    rfl

/-- Witness for `ingest_rejects_bad_inputs`: a `.txt` upload is rejected as
unsupported, and a PDF whose pages extract to whitespace is rejected as
empty, with the fresh state returned untouched both times. -/
theorem ingest_rejects_bad_inputs_witness :
    ((pyEndsWith (pyLower "notes.txt") ".png" = false ∧
      pyEndsWith (pyLower "notes.txt") ".jpg" = false ∧
      pyEndsWith (pyLower "notes.txt") ".jpeg" = false ∧
      pyEndsWith (pyLower "notes.txt") ".webp" = false ∧
      pyEndsWith (pyLower "notes.txt") ".pdf" = false) ∧
      ingest_file envA st0 "notes.txt" = (.ok (.err "Unsupported format."), st0, [])) ∧
    (isPdfExt "blank.pdf" = true ∧
      extract_text_from_pdf envBlank "blank.pdf" = .ok "  \n" ∧
      (∀ c ∈ "  \n".data, c.isWhitespace) ∧
      ingest_file envBlank st0 "blank.pdf" = (.ok (.err "PDF is empty."), st0, [.extract])) :=
  ⟨⟨by decide,
    (ingest_rejects_bad_inputs envA st0 "notes.txt").1 (by decide)⟩,
   ⟨by decide, rfl, by decide,
    (ingest_rejects_bad_inputs envBlank st0 "blank.pdf").2 "  \n" (by decide) rfl (by decide)⟩⟩

/-- C8: `/search` with a persisted index invokes the retrieval-then-generate
chain on the query and returns its answer with a citation naming the page
metadata of the first retrieved source document; without an index it returns
the offline message and no chain is invoked. -/
theorem search_behavior :
    ∀ (qa : String → String × List Document) (st : St) (q : String),
    (st.faissIndex = none →
        search_documents qa st q =
          .ok { answer := "System offline. Please upload a document first.",
                citation := none, qaQueries := [] }) ∧
    (∀ ans s0 rest, st.faissIndex.isSome = true → qa q = (ans, s0 :: rest) →
        search_documents qa st q =
          .ok { answer := ans, citation := some ("Source: Page " ++ pageRef s0),
                qaQueries := [q] }) := by
  intro qa st q
  constructor
  · intro h
    unfold search_documents
    rw [h]
    rfl
  · intro ans s0 rest hsome hqa
    obtain ⟨v, hv⟩ := Option.isSome_iff_exists.mp hsome
    unfold search_documents
    rw [hv, hqa]
    rfl

/-- Witness for `search_behavior`: offline on the fresh state; on `stA`, the
retrieved first source (page 3) is cited and the chain's answer returned. -/
theorem search_behavior_witness :
    search_documents (fun q => ("ans " ++ q, [⟨"chunk", "src", some 3⟩])) st0 "q1" =
      .ok { answer := "System offline. Please upload a document first.",
            citation := none, qaQueries := [] } ∧
    search_documents (fun q => ("ans " ++ q, [⟨"chunk", "src", some 3⟩])) stA "q1" =
      .ok { answer := "ans q1",
            citation := some ("Source: Page " ++ pageRef ⟨"chunk", "src", some 3⟩),
            qaQueries := ["q1"] } :=
  ⟨(search_behavior (fun q => ("ans " ++ q, [⟨"chunk", "src", some 3⟩])) st0 "q1").1 rfl,
   (search_behavior (fun q => ("ans " ++ q, [⟨"chunk", "src", some 3⟩])) stA "q1").2
     "ans q1" ⟨"chunk", "src", some 3⟩ [] rfl rfl⟩

/-- C6: `/login` with credentials matching a stored user returns a token
signed with the server secret under HS256 whose subject is the username and
whose expiry is exactly `ACCESS_TOKEN_EXPIRE_MINUTES` (60 minutes) after
issuance; `get_current_user` answers HTTP 401 whenever the token fails
signature or algorithm or expiry validation, lacks a subject, or names a
username absent from `users.json`; and `/login` with non-matching
credentials answers HTTP 401. -/
theorem auth_token_lifecycle :
    (∀ (users : List UserCredentials) (creds : UserCredentials) (now : Nat),
      (∃ u ∈ users, u.username = creds.username ∧ u.password = creds.password) →
      ∃ r, login users creds now = .ok r ∧
        r.token.key = SECRET_KEY ∧ r.token.alg = "HS256" ∧
        r.token.sub = some r.username ∧
        r.token.exp = now + ACCESS_TOKEN_EXPIRE_MINUTES * 60 ∧
        r.username = creds.username) ∧
    (∀ (users : List UserCredentials) (token : Token) (now : Nat),
      (token.key ≠ SECRET_KEY ∨ token.alg ≠ ALGORITHM ∨ token.exp < now ∨
        token.sub = none ∨ (∀ u ∈ users, some u.username ≠ token.sub)) →
      get_current_user users token now = .error 401) ∧
    (∀ (users : List UserCredentials) (creds : UserCredentials) (now : Nat),
      (∀ u ∈ users, ¬ (u.username = creds.username ∧ u.password = creds.password)) →
      login users creds now = .error 401) := by
  refine ⟨?_, ?_, ?_⟩
  · intro users creds now ⟨u, hu, hn, hp⟩
    have hfind : (users.find? (fun u => u.username == creds.username &&
        u.password == creds.password)).isSome := by
      rw [List.find?_isSome]
      exact ⟨u, hu, by simp [hn, hp]⟩
    obtain ⟨u', hu'⟩ := Option.isSome_iff_exists.mp hfind
    have hpred := List.find?_some hu'
    simp only [Bool.and_eq_true, beq_iff_eq] at hpred
    unfold login
    rw [hu']
    exact ⟨_, rfl, rfl, rfl, rfl, rfl, hpred.1⟩
  · intro users token now hcase
    unfold get_current_user jwt_decode
    by_cases hk : token.key ≠ SECRET_KEY
    · rw [if_pos hk]
    · rw [if_neg hk]
      by_cases ha : token.alg ∉ ([ALGORITHM] : List String)
      · rw [if_pos ha]
      · rw [if_neg ha]
        by_cases he : token.exp < now
        · rw [if_pos he]
        · rw [if_neg he]
          dsimp only
          rcases hcase with h | h | h | h | h
          · exact absurd h hk
          · rw [not_not] at ha
            simp only [List.mem_singleton] at ha
            exact absurd ha h
          · exact absurd h he
          · rw [h]
          · cases hsub : token.sub with
            | none => rfl
            | some sb =>
              dsimp only
              have hfind : users.find? (fun u => u.username == sb) = none := by
                rw [List.find?_eq_none]
                intro u hu
                simp only [beq_iff_eq]
                intro heq
                exact h u hu (by rw [heq, hsub])
              rw [hfind]
  · intro users creds now h
    have hfind : users.find? (fun u => u.username == creds.username &&
        u.password == creds.password) = none := by
      rw [List.find?_eq_none]
      intro u hu
      simp only [Bool.and_eq_true, beq_iff_eq, not_and]
      intro h1 h2
      exact h u hu ⟨h1, h2⟩
    unfold login
    rw [hfind]

/-- Witness for `auth_token_lifecycle`: with the single stored user
`alice`/`pw` at time 1000, a matching login yields the expected token; an
expired token is rejected; a wrong password is rejected. -/
theorem auth_token_lifecycle_witness :
    ((∃ u ∈ [UserCredentials.mk "alice" "pw"],
        u.username = "alice" ∧ u.password = "pw") ∧
      ∃ r, login [UserCredentials.mk "alice" "pw"] (UserCredentials.mk "alice" "pw") 1000
          = .ok r ∧
        r.token.key = SECRET_KEY ∧ r.token.alg = "HS256" ∧
        r.token.sub = some r.username ∧
        r.token.exp = 1000 + ACCESS_TOKEN_EXPIRE_MINUTES * 60 ∧
        r.username = "alice") ∧
    get_current_user [UserCredentials.mk "alice" "pw"]
        (Token.mk (some "alice") 500 SECRET_KEY "HS256") 1000 = .error 401 ∧
    login [UserCredentials.mk "alice" "pw"] (UserCredentials.mk "alice" "wrong") 1000
        = .error 401 :=
  ⟨⟨by decide,
    auth_token_lifecycle.1 [UserCredentials.mk "alice" "pw"]
      (UserCredentials.mk "alice" "pw") 1000 (by decide)⟩,
   auth_token_lifecycle.2.1 [UserCredentials.mk "alice" "pw"]
     (Token.mk (some "alice") 500 SECRET_KEY "HS256") 1000
     (Or.inr (Or.inr (Or.inl (by decide)))),
   auth_token_lifecycle.2.2 [UserCredentials.mk "alice" "pw"]
     (UserCredentials.mk "alice" "wrong") 1000 (by decide)⟩

end Insightz
